import Mathlib

set_option maxHeartbeats 1000000
set_option autoImplicit false

/-!
Shallow embedding of src/topology/core/potential.py: the class Potential,
its property setters, set_expression, the cross-consistency check
_validate_expression_parameters, and the three module-level validators.

Modelling conventions.
Python dicts are association lists stored in an explicit heap, because the
code mutates dicts in place (dict.update in the parameters setter and in
set_expression) and the constructor default for parameters is a single
shared dict object created once at definition time.
A sympy expression is a small expression tree; sympy Symbol values are
identified by their name string, and a string expression argument is parsed
by sympy.sympify before it reaches the stored state, so the embedding works
with the parsed tree (symbol names are taken to be single identifiers).
A raised Python exception is an explicit error value; a mutating method that
raises still returns the mutated state, matching in-place mutation.
-/

/-- Injection used to decide equality of Except values. -/
def exceptToSum {α β : Type} : Except α β → α ⊕ β
  | .error a => .inl a
  | .ok b => .inr b

instance {α β : Type} [DecidableEq α] [DecidableEq β] : DecidableEq (Except α β) :=
  fun x y =>
    decidable_of_iff (exceptToSum x = exceptToSum y)
      (by cases x <;> cases y <;> simp [exceptToSum])

/-- A sympy expression value (sympy.Expr). -/
inductive SymExpr where
  | sym (nm : String)
  | intConst (n : Int)
  | add (a b : SymExpr)
  | mul (a b : SymExpr)
deriving DecidableEq

/-- sympy free_symbols of an expression, as the set of symbol names. -/
def SymExpr.freeSymbols : SymExpr → Finset String
  | .sym nm => {nm}
  | .intConst _ => ∅
  | .add a b => a.freeSymbols ∪ b.freeSymbols
  | .mul a b => a.freeSymbols ∪ b.freeSymbols

/-- The parse of the default expression string a*x+b (line 34). -/
def defaultExpr : SymExpr := .add (.mul (.sym "a") (.sym "x")) (.sym "b")

/-- A unyt quantity: a numeric magnitude with a unit tag. -/
structure UnytQ where
  magnitude : ℚ
  unitName : String
deriving DecidableEq

/-- A Python value stored in a parameters dict: either a unyt quantity or
some other value, for which isinstance(val, u.unyt_array) is False. -/
inductive PyVal where
  | unyt (q : UnytQ)
  | nonUnyt
deriving DecidableEq

/-- The isinstance(val, u.unyt_array) test of line 170. -/
def PyVal.isUnyt : PyVal → Bool
  | .unyt _ => true
  | .nonUnyt => false

/-- A Python dict with string keys, in insertion order.  Keys are typed as
strings, so the isinstance(key, str) test of line 172 always passes. -/
abbrev Dict := List (String × PyVal)

abbrev Ref := Nat

/-- The store of dict objects; a Ref is an object identity. -/
structure Heap where
  dicts : List Dict
deriving DecidableEq

def Heap.get (h : Heap) (r : Ref) : Dict := h.dicts.getD r []

def Heap.set (h : Heap) (r : Ref) (d : Dict) : Heap := ⟨h.dicts.set r d⟩

/-- Creation of a fresh dict object by a caller (a dict literal). -/
def Heap.alloc (h : Heap) (d : Dict) : Heap × Ref := (⟨h.dicts ++ [d]⟩, h.dicts.length)

def dictKeysList (d : Dict) : List String := d.map Prod.fst

def dictKeys (d : Dict) : Finset String := (dictKeysList d).toFinset

/-- Python dict.update: a colliding key keeps its position and gets the new
value, keys not yet present are appended in the order of the argument. -/
def dictUpdate (d n : Dict) : Dict :=
  d.map (fun kv => (kv.1, (n.lookup kv.1).getD kv.2))
    ++ n.filter (fun kv => (d.lookup kv.1).isNone)

/-- Python dict equality: the same keys, with equal values at every key.
unyt equality is modelled by structural equality of UnytQ. -/
def dictEq (d1 d2 : Dict) : Bool :=
  d1.all (fun kv => decide (d2.lookup kv.1 = some kv.2))
    && d2.all (fun kv => decide (d1.lookup kv.1 = some kv.2))

/-- A Python object appearing in the sets compared at line 122: either a str
key of a parameters dict, or a sympy Symbol out of free_symbols.  A str and
a Symbol are distinct objects with different hashes, so Python set
membership never identifies one with the other, even for equal names. -/
inductive PyObj where
  | pystr (s : String)
  | pysym (s : String)
deriving DecidableEq

/-- Line 122: set(parameters.keys()).isdisjoint(self._expression.free_symbols),
a disjointness test between a set of str and a set of sympy Symbol. -/
def strSymDisjointCk (ks fs : Finset String) : Bool :=
  decide ((ks.image PyObj.pystr) ∩ (fs.image PyObj.pysym) = ∅)

/-- The exceptions the module can raise, with the data named in the message. -/
inductive PyErr where
  | valueErrorNotDict
  | valueErrorLacksUnyt
  | valueErrorMixedIndepVars
  | valueErrorBadIndepType
  | valueErrorBadExprType
  | valueErrorNoOverlap (expected : List String)
  | valueErrorMismatch
  | valueErrorMissingSyms (missing : Finset String)
  | attributeErrorNoneFreeSymbols
  | typeErrorSetMinusList
deriving DecidableEq

/-- Whether the exception is of class ValueError. -/
def PyErr.isValueError : PyErr → Bool
  | .attributeErrorNoneFreeSymbols => false
  | .typeErrorSetMinusList => false
  | _ => true

/-- Whether the exception is the line 123 error, message Mismatch between
parameters and expression symbols. -/
def PyErr.isMismatch : PyErr → Bool
  | .valueErrorMismatch => true
  | _ => false

/-- Whether the exception is the line 113 error, message parameters argument
includes no variables found in expression. -/
def PyErr.isNoOverlap : PyErr → Bool
  | .valueErrorNoOverlap _ => true
  | _ => false

/-- A warnings.warn call, with the set of symbols named in the message. -/
inductive Warn where
  | unusedSymbols (syms : Finset String)
  | extraneousSymbols (syms : Finset String)
deriving DecidableEq

/-- Outcome of _validate_expression_parameters: the warnings it emits in
order, and the exception it raises, if any. -/
structure CheckResult where
  warnings : List Warn
  error : Option PyErr
deriving DecidableEq

/-- An element of a collection passed as independent_variables: a str or a
sympy Symbol, identified by name. -/
inductive IndepItem where
  | str (s : String)
  | sym (s : String)
deriving DecidableEq

def IndepItem.isStr : IndepItem → Bool
  | .str _ => true
  | .sym _ => false

def IndepItem.isSym : IndepItem → Bool
  | .str _ => false
  | .sym _ => true

def IndepItem.name : IndepItem → String
  | .str s => s
  | .sym s => s

/-- The shapes an independent_variables argument can take at line 178. -/
inductive IndepInput where
  | single_str (s : String)
  | single_sym (s : String)
  | list (items : List IndepItem)
  | set (items : Finset IndepItem)
  | pyNone
  | other
deriving DecidableEq

/-- What _validate_independent_variables can return and the object then
stored: a Python set of Symbol, or a Python list of Symbol, which the
function passes through unchanged. -/
inductive IndepStore where
  | asList (l : List String)
  | asSet (s : Finset String)
deriving DecidableEq

/-- The set of symbols an IndepStore holds; Python set.union accepts a list
argument and collects its elements. -/
def IndepStore.toFinset : IndepStore → Finset String
  | .asList l => l.toFinset
  | .asSet s => s

/-- Whether the stored value is a Python set. -/
def IndepStore.isSetResult : IndepStore → Bool
  | .asList _ => false
  | .asSet _ => true

/-- Lines 178 to 197, _validate_independent_variables.  Note the list and
set branch: when every element is a Symbol the input is returned unchanged,
so a list input stays a list; only a collection of strings is rebuilt with
set(). -/
def validateIndependentVariables : IndepInput → Except PyErr IndepStore
  | .single_str s => .ok (.asSet {s})
  | .single_sym s => .ok (.asSet {s})
  | .list items =>
      if items.all IndepItem.isSym then .ok (.asList (items.map IndepItem.name))
      else if items.all IndepItem.isStr then
        .ok (.asSet (items.map IndepItem.name).toFinset)
      else .error .valueErrorMixedIndepVars
  | .set items =>
      if ∀ x ∈ items, IndepItem.isSym x = true then
        .ok (.asSet (items.image IndepItem.name))
      else if ∀ x ∈ items, IndepItem.isStr x = true then
        .ok (.asSet (items.image IndepItem.name))
      else .error .valueErrorMixedIndepVars
  | .pyNone => .error .valueErrorBadIndepType
  | .other => .error .valueErrorBadIndepType

/-- The shapes an expression argument can take at line 200: None, a sympy
expression (a string has been parsed by sympy.sympify already), or a value
of any other type. -/
inductive ExprInput where
  | pyNone
  | sympyExpr (e : SymExpr)
  | invalid
deriving DecidableEq

/-- Lines 200 to 209, _validate_expression.  None is accepted and returned. -/
def validateExpression : ExprInput → Except PyErr (Option SymExpr)
  | .pyNone => .ok none
  | .sympyExpr e => .ok (some e)
  | .invalid => .error .valueErrorBadExprType

/-- The shapes a parameters argument can take: a dict object, None, or a
value of some other type. -/
inductive ParamsInput where
  | dict (r : Ref)
  | pyNone
  | notDict
deriving DecidableEq

/-- Lines 166 to 175, _validate_parameters.  On success it returns the very
dict object it was given, not a copy. -/
def validateParameters (h : Heap) : ParamsInput → Except PyErr Ref
  | .dict r =>
      if (Heap.get h r).all (fun kv => PyVal.isUnyt kv.2) then .ok r
      else .error .valueErrorLacksUnyt
  | .pyNone => .error .valueErrorNotDict
  | .notDict => .error .valueErrorNotDict

/-- Symmetric difference of symbol sets, the Python set xor of line 145. -/
def finsetXor (a b : Finset String) : Finset String := (a \ b) ∪ (b \ a)

/-- Lines 127 to 149, _validate_expression_parameters, on the three pieces
of state it reads: the parameter keys as symbols (line 129), the stored
independent variables object, and the stored expression.
Line 131 builds used_symbols with set.union, which accepts a list.
Line 132 reads expression.free_symbols, an AttributeError when the stored
expression is None.  Lines 133 to 135 warn about free symbols not in
used_symbols.  Line 137 compares used_symbols with free_symbols; line 139
narrows to the parameter symbols alone; line 140 computes the missing
symbols by set subtraction, and subtracting the stored independent
variables raises a TypeError when they are a list, since the Python set
minus operator requires a set operand.  Lines 141 to 144 raise on missing
symbols, lines 145 to 149 warn about the symmetric difference. -/
def validateExpressionParameters (pkeys : Finset String) (istore : IndepStore)
    (oexpr : Option SymExpr) : CheckResult :=
  match oexpr with
  | none => { warnings := [], error := some .attributeErrorNoneFreeSymbols }
  | some e =>
    let usedSymbols := pkeys ∪ istore.toFinset
    let freeSyms := e.freeSymbols
    let unusedSymbols := freeSyms \ usedSymbols
    let ws : List Warn :=
      if unusedSymbols = ∅ then [] else [.unusedSymbols unusedSymbols]
    if usedSymbols = freeSyms then { warnings := ws, error := none }
    else if pkeys = freeSyms then { warnings := ws, error := none }
    else
      match istore with
      | .asList _ => { warnings := ws, error := some .typeErrorSetMinusList }
      | .asSet iset =>
        let missingSyms := (freeSyms \ pkeys) \ iset
        if missingSyms = ∅ then
          { warnings := ws ++ [.extraneousSymbols (finsetXor pkeys freeSyms)],
            error := none }
        else { warnings := ws, error := some (.valueErrorMissingSyms missingSyms) }

/-- The Potential object state: lines 41 to 44.  The parameters attribute
holds a reference to a dict object in the heap. -/
structure Potential where
  name : String
  parametersRef : Ref
  independent_variables : IndepStore
  expression : Option SymExpr
deriving DecidableEq

/-- Lines 32 to 46, the constructor: validate parameters, independent
variables and expression in that order, then run the cross check.  A raise
leaves no constructed object; the heap is not modified. -/
def Potential.init (h : Heap) (nm : String) (eIn : ExprInput) (pIn : ParamsInput)
    (iIn : IndepInput) : Except PyErr Potential :=
  match validateParameters h pIn with
  | .error er => .error er
  | .ok pref =>
    match validateIndependentVariables iIn with
    | .error er => .error er
    | .ok istore =>
      match validateExpression eIn with
      | .error er => .error er
      | .ok oe =>
        let chk := validateExpressionParameters (dictKeys (Heap.get h pref)) istore oe
        match chk.error with
        | some er => .error er
        | none =>
          .ok { name := nm, parametersRef := pref,
                independent_variables := istore, expression := oe }

/-- The default parameters dict of lines 35 to 37, created once when the def
statement runs and shared by every defaulted call. -/
def defaultParams : Dict :=
  [("a", .unyt { magnitude := 1, unitName := "dimensionless" }),
   ("b", .unyt { magnitude := 1, unitName := "dimensionless" })]

/-- The object identity of the shared default parameters dict. -/
def defaultParamsRef : Ref := 0

/-- The heap after the module is loaded: only the default dict exists. -/
def initHeap : Heap := { dicts := [defaultParams] }

/-- A call Potential() with every argument defaulted; the parameters
argument is the shared default dict object. -/
def Potential.initDefault (h : Heap) : Except PyErr Potential :=
  Potential.init h "Potential" (.sympyExpr defaultExpr) (.dict defaultParamsRef)
    (.set {IndepItem.str "x"})

/-- Outcome of a mutating method: the heap and object after the call, the
exception raised if any, and the warnings emitted.  Mutations applied
before a raise persist. -/
structure MutResult where
  heap : Heap
  pot : Potential
  error : Option PyErr
  warnings : List Warn

/-- Lines 60 to 65, the parameters property setter: validate, merge into the
stored dict in place with dict.update, then run the cross check. -/
def Potential.parametersSetter (h : Heap) (p : Potential) (pIn : ParamsInput) : MutResult :=
  match validateParameters h pIn with
  | .error er => { heap := h, pot := p, error := some er, warnings := [] }
  | .ok nref =>
    let h1 := Heap.set h p.parametersRef
      (dictUpdate (Heap.get h p.parametersRef) (Heap.get h nref))
    let chk := validateExpressionParameters (dictKeys (Heap.get h1 p.parametersRef))
      p.independent_variables p.expression
    { heap := h1, pot := p, error := chk.error, warnings := chk.warnings }

/-- Lines 79 to 83, the expression property setter: the new expression is
assigned first, then the cross check runs, so a check failure leaves the
expression already replaced. -/
def Potential.expressionSetter (h : Heap) (p : Potential) (eIn : ExprInput) : MutResult :=
  match validateExpression eIn with
  | .error er => { heap := h, pot := p, error := some er, warnings := [] }
  | .ok oe =>
    let p1 : Potential := { p with expression := oe }
    let chk := validateExpressionParameters (dictKeys (Heap.get h p1.parametersRef))
      p1.independent_variables p1.expression
    { heap := h, pot := p1, error := chk.error, warnings := chk.warnings }

/-- Lines 119 to 120 of set_expression: when the independent_variables
argument is not None, validate it and assign. -/
def stepIndep (p1 : Potential) (iIn : IndepInput) : Except PyErr Potential :=
  if iIn = IndepInput.pyNone then Except.ok p1
  else
    match validateIndependentVariables iIn with
    | .error er => Except.error er
    | .ok st => Except.ok { p1 with independent_variables := st }

/-- Lines 104 to 105 of set_expression: when the expression argument is not
None, validate it and assign. -/
def stepExpr (p : Potential) (eIn : ExprInput) : Except PyErr Potential :=
  if eIn = ExprInput.pyNone then Except.ok p
  else
    match validateExpression eIn with
    | .error er => Except.error er
    | .ok oe => Except.ok { p with expression := oe }

/-- Lines 119 to 125 of set_expression, shared by both parameter branches:
replace independent variables when given, then the line 122 guard on the
keys of the local parameters variable against free_symbols, then the cross
check.  Reading free_symbols of a stored None expression raises an
AttributeError. -/
def setExpressionTail (h1 : Heap) (p1 : Potential) (guardKeys : Finset String)
    (iIn : IndepInput) : MutResult :=
  match stepIndep p1 iIn with
  | .error er => { heap := h1, pot := p1, error := some er, warnings := [] }
  | .ok p2 =>
    match p2.expression with
    | none =>
      { heap := h1, pot := p2, error := some .attributeErrorNoneFreeSymbols,
        warnings := [] }
    | some e =>
      if strSymDisjointCk guardKeys e.freeSymbols then
        let chk := validateExpressionParameters (dictKeys (Heap.get h1 p2.parametersRef))
          p2.independent_variables p2.expression
        { heap := h1, pot := p2, error := chk.error, warnings := chk.warnings }
      else { heap := h1, pot := p2, error := some .valueErrorMismatch, warnings := [] }

/-- Lines 85 to 125, set_expression.  When an expression is given it is
validated and assigned at once.  When parameters is None the local
parameters variable aliases the stored dict and no update runs; otherwise
the argument is validated, the no-overlap error is raised when its keys
share nothing with the stored keys and no expression was given, and then
the stored dict is updated in place.  The line 122 guard then reads the
keys of the local parameters variable: the stored dict in the None branch,
the freshly given dict in the other. -/
def Potential.set_expression (h : Heap) (p : Potential) (eIn : ExprInput)
    (pIn : ParamsInput) (iIn : IndepInput) : MutResult :=
  match stepExpr p eIn with
  | .error er => { heap := h, pot := p, error := some er, warnings := [] }
  | .ok p1 =>
    match pIn with
    | ParamsInput.pyNone =>
      setExpressionTail h p1 (dictKeys (Heap.get h p1.parametersRef)) iIn
    | _ =>
      match validateParameters h pIn with
      | .error er => { heap := h, pot := p1, error := some er, warnings := [] }
      | .ok nref =>
        if dictKeys (Heap.get h p1.parametersRef) ∩ dictKeys (Heap.get h nref) = ∅
            ∧ eIn = ExprInput.pyNone then
          { heap := h, pot := p1,
            error := some (.valueErrorNoOverlap (dictKeysList (Heap.get h p1.parametersRef))),
            warnings := [] }
        else
          let h1 := Heap.set h p1.parametersRef
            (dictUpdate (Heap.get h p1.parametersRef) (Heap.get h nref))
          setExpressionTail h1 p1 (dictKeys (Heap.get h1 nref)) iIn

/-- Lines 151 to 159, equality: name, parameters dict equality, and
symbolic equality of the expressions; independent variables are not read. -/
def Potential.beq (h : Heap) (p q : Potential) : Bool :=
  decide (p.name = q.name)
    && dictEq (Heap.get h p.parametersRef) (Heap.get h q.parametersRef)
    && decide (p.expression = q.expression)

/-- The parameters object identity of a successfully constructed Potential. -/
def initOkRef : Except PyErr Potential → Option Ref
  | .ok p => some p.parametersRef
  | .error _ => none

/-- The object state a fully defaulted construction produces: it stores the
shared default dict object. -/
def defaultPotential : Potential :=
  { name := "Potential", parametersRef := defaultParamsRef,
    independent_variables := IndepStore.asSet {"x"},
    expression := some defaultExpr }

/-- The heap after a caller builds one dict literal next to the default
dict; the fresh dict gets reference 1. -/
def heapWithDict (d : Dict) : Heap := ⟨initHeap.dicts ++ [d]⟩

/-- A Potential as constructed with the defaulted name, expression and
parameters but independent variables passed as the list of symbols x. -/
def listIndepPotential : Potential :=
  { name := "Potential", parametersRef := defaultParamsRef,
    independent_variables := IndepStore.asList ["x"],
    expression := some defaultExpr }

/-! Helper lemmas about the dict model. -/

theorem dict_lookup_append (l1 l2 : Dict) (k : String) :
    (l1 ++ l2).lookup k = ((l1.lookup k).or (l2.lookup k)) := by
  induction l1 with
  | nil => simp [List.lookup]
  | cons kv t ih =>
    simp only [List.cons_append, List.lookup]
    cases hbe : (k == kv.1) <;> simp [ih]

theorem dict_lookup_map_update (d n : Dict) (k : String) :
    (d.map (fun kv => (kv.1, (n.lookup kv.1).getD kv.2))).lookup k
      = (d.lookup k).map (fun v => (n.lookup k).getD v) := by
  induction d with
  | nil => simp [List.lookup]
  | cons kv t ih =>
    simp only [List.map_cons, List.lookup]
    cases hbe : (k == kv.1) with
    | false => simpa using ih
    | true =>
      have hk : k = kv.1 := by simpa using hbe
      subst hk
      simp

theorem dict_lookup_filter_none (d n : Dict) (k : String) :
    (n.filter (fun kv => (d.lookup kv.1).isNone)).lookup k
      = if (d.lookup k).isNone then n.lookup k else none := by
  induction n with
  | nil => simp [List.lookup]
  | cons kv t ih =>
    rw [List.filter_cons]
    cases hkeep : (d.lookup kv.1).isNone with
    | true =>
      simp only [hkeep, if_true]
      cases hbe : (k == kv.1) with
      | true =>
        have hk : k = kv.1 := by simpa using hbe
        simp [List.lookup, hbe, hk, hkeep]
      | false =>
        simp [List.lookup, hbe, ih]
    | false =>
      simp only [hkeep, Bool.false_eq_true, if_false]
      cases hbe : (k == kv.1) with
      | true =>
        have hk : k = kv.1 := by simpa using hbe
        rw [ih]
        simp [hk, hkeep]
      | false =>
        rw [ih]
        cases hd : (d.lookup k).isNone <;> simp [hd, List.lookup, hbe]

theorem dict_lookup_update (d n : Dict) (k : String) :
    (dictUpdate d n).lookup k = ((n.lookup k).or (d.lookup k)) := by
  unfold dictUpdate
  rw [dict_lookup_append, dict_lookup_map_update, dict_lookup_filter_none]
  cases hd : d.lookup k <;> cases hn : n.lookup k <;> simp [hd, hn]

theorem list_getD_set_self (l : List Dict) (r : Nat) (d : Dict) (hr : r < l.length) :
    (l.set r d).getD r [] = d := by
  induction l generalizing r with
  | nil => simp at hr
  | cons a t ih =>
    cases r with
    | zero => simp [List.set, List.getD]
    | succ r =>
      simp only [List.set, List.length_cons] at hr ⊢
      have := ih r (by omega)
      simpa [List.getD] using this

theorem heap_get_set_self (h : Heap) (r : Ref) (d : Dict) (hr : r < h.dicts.length) :
    Heap.get (Heap.set h r d) r = d := by
  simpa [Heap.get, Heap.set] using list_getD_set_self h.dicts r d hr

theorem dict_lookup_of_nodup_mem (d : Dict) (hnd : (d.map Prod.fst).Nodup)
    (k : String) (v : PyVal) (hm : (k, v) ∈ d) : d.lookup k = some v := by
  induction d with
  | nil => simp at hm
  | cons kv t ih =>
    simp only [List.map_cons, List.nodup_cons] at hnd
    rcases List.mem_cons.mp hm with hhead | htail
    · have h1 : kv.1 = k := by rw [← hhead]
      have h2 : kv.2 = v := by rw [← hhead]
      simp [List.lookup, h1.symm, h2]
    · have hne : k ≠ kv.1 := by
        intro hk
        exact hnd.1 (hk ▸ (List.mem_map.mpr ⟨(k, v), htail, rfl⟩))
      have hbe : (k == kv.1) = false := by simpa using hne
      simp [List.lookup, hbe, ih hnd.2 htail]

/-! Helper lemmas about the line 122 guard and the cross check. -/

theorem strSymDisjointCk_true (ks fs : Finset String) :
    strSymDisjointCk ks fs = true := by
  unfold strSymDisjointCk
  rw [decide_eq_true_iff]
  rw [Finset.eq_empty_iff_forall_not_mem]
  intro x hx
  rcases Finset.mem_inter.mp hx with ⟨hs, hy⟩
  rcases Finset.mem_image.mp hs with ⟨a, _, ha⟩
  rcases Finset.mem_image.mp hy with ⟨b, _, hb⟩
  rw [← ha] at hb
  exact PyObj.noConfusion hb

theorem finset_sdiff_sdiff_union (s t u : Finset String) :
    (s \ t) \ u = s \ (t ∪ u) := by
  ext x
  simp only [Finset.mem_sdiff, Finset.mem_union]
  tauto

theorem check_missing_eq (pkeys iset : Finset String) (e : SymExpr)
    (hne : (e.freeSymbols \ (pkeys ∪ iset)).Nonempty) :
    validateExpressionParameters pkeys (.asSet iset) (some e)
      = { warnings := [.unusedSymbols (e.freeSymbols \ (pkeys ∪ iset))],
          error := some (.valueErrorMissingSyms (e.freeSymbols \ (pkeys ∪ iset))) } := by
  have hunused : e.freeSymbols \ (pkeys ∪ iset) ≠ ∅ := hne.ne_empty
  obtain ⟨x, hx⟩ := hne
  rcases Finset.mem_sdiff.mp hx with ⟨hxF, hxU⟩
  have hused : pkeys ∪ iset ≠ e.freeSymbols := by
    intro hcon
    exact hxU (by rw [hcon]; exact hxF)
  have hpk : pkeys ≠ e.freeSymbols := by
    intro hcon
    exact hxU (Finset.mem_union_left _ (by rw [hcon]; exact hxF))
  have hmiss : (e.freeSymbols \ pkeys) \ iset ≠ ∅ := by
    rw [finset_sdiff_sdiff_union]
    exact hunused
  simp only [validateExpressionParameters, IndepStore.toFinset]
  simp only [if_neg hunused, if_neg hused, if_neg hpk, if_neg hmiss,
    finset_sdiff_sdiff_union]

theorem check_extra_eq (pkeys iset : Finset String) (e : SymExpr)
    (hsub : e.freeSymbols ⊆ pkeys ∪ iset)
    (hne : ((pkeys ∪ iset) \ e.freeSymbols).Nonempty) :
    validateExpressionParameters pkeys (.asSet iset) (some e)
      = { warnings := if pkeys = e.freeSymbols then []
            else [.extraneousSymbols (finsetXor pkeys e.freeSymbols)],
          error := none } := by
  have hunused : e.freeSymbols \ (pkeys ∪ iset) = ∅ :=
    Finset.sdiff_eq_empty_iff_subset.mpr hsub
  obtain ⟨x, hx⟩ := hne
  rcases Finset.mem_sdiff.mp hx with ⟨hxU, hxF⟩
  have hused : pkeys ∪ iset ≠ e.freeSymbols := by
    intro hcon
    exact hxF (by rw [← hcon]; exact hxU)
  have hmiss0 : (e.freeSymbols \ pkeys) \ iset = ∅ := by
    rw [finset_sdiff_sdiff_union]
    exact hunused
  by_cases hpk : pkeys = e.freeSymbols
  · simp only [validateExpressionParameters, IndepStore.toFinset, if_pos hunused,
      if_neg hused, if_pos hpk]
  · simp only [validateExpressionParameters, IndepStore.toFinset, if_pos hunused,
      if_neg hused, if_neg hpk, if_pos hmiss0, List.nil_append]

theorem check_error_classes (pk : Finset String) (st : IndepStore) (oe : Option SymExpr) :
    ((validateExpressionParameters pk st oe).error.all
      (fun er => !er.isMismatch && !er.isNoOverlap)) = true := by
  rcases oe with _ | e
  · rfl
  · rcases st with l | iset
    · simp only [validateExpressionParameters, IndepStore.toFinset]
      split
      · rfl
      · split <;> rfl
    · simp only [validateExpressionParameters, IndepStore.toFinset]
      split
      · rfl
      · split
        · rfl
        · split <;> rfl

theorem indep_error_classes (iIn : IndepInput) (er : PyErr)
    (h : validateIndependentVariables iIn = .error er) :
    er = .valueErrorMixedIndepVars ∨ er = .valueErrorBadIndepType := by
  cases iIn with
  | single_str s => simp [validateIndependentVariables] at h
  | single_sym s => simp [validateIndependentVariables] at h
  | list items =>
    simp only [validateIndependentVariables] at h
    split at h
    · simp at h
    · split at h
      · simp at h
      · injection h with h2
        exact Or.inl h2.symm
  | set items =>
    simp only [validateIndependentVariables] at h
    split at h
    · simp at h
    · split at h
      · simp at h
      · injection h with h2
        exact Or.inl h2.symm
  | pyNone =>
    injection h with h2
    exact Or.inr h2.symm
  | other =>
    injection h with h2
    exact Or.inr h2.symm

theorem stepIndep_error (p1 : Potential) (iIn : IndepInput) (er : PyErr)
    (h : stepIndep p1 iIn = .error er) :
    validateIndependentVariables iIn = .error er := by
  unfold stepIndep at h
  split at h
  · simp at h
  · rcases hv : validateIndependentVariables iIn with er2 | st
    · rw [hv] at h
      injection h with h2
      exact congrArg Except.error h2
    · rw [hv] at h
      simp at h

theorem stepExpr_error (p : Potential) (eIn : ExprInput) (er : PyErr)
    (h : stepExpr p eIn = .error er) :
    validateExpression eIn = .error er := by
  unfold stepExpr at h
  split at h
  · simp at h
  · rcases hv : validateExpression eIn with er2 | oe
    · rw [hv] at h
      injection h with h2
      exact congrArg Except.error h2
    · rw [hv] at h
      simp at h

theorem expr_error_classes (eIn : ExprInput) (er : PyErr)
    (h : validateExpression eIn = .error er) : er = .valueErrorBadExprType := by
  cases eIn with
  | pyNone => simp [validateExpression] at h
  | sympyExpr e => simp [validateExpression] at h
  | invalid =>
    injection h with h2
    exact h2.symm

theorem params_error_classes (h : Heap) (pIn : ParamsInput) (er : PyErr)
    (he : validateParameters h pIn = .error er) :
    er = .valueErrorNotDict ∨ er = .valueErrorLacksUnyt := by
  cases pIn with
  | dict r =>
    simp only [validateParameters] at he
    split at he
    · simp at he
    · injection he with h2
      exact Or.inr h2.symm
  | pyNone =>
    injection he with h2
    exact Or.inl h2.symm
  | notDict =>
    injection he with h2
    exact Or.inl h2.symm

theorem tail_heap_eq (h1 : Heap) (p1 : Potential) (gk : Finset String) (iIn : IndepInput) :
    (setExpressionTail h1 p1 gk iIn).heap = h1 := by
  unfold setExpressionTail
  split
  · rfl
  · split
    · rfl
    · split <;> rfl

theorem option_all_weaken_left (o : Option PyErr)
    (h : (o.all (fun er => !er.isMismatch && !er.isNoOverlap)) = true) :
    (o.all (fun er => !er.isMismatch)) = true := by
  cases o <;> simp_all [Option.all]

theorem option_all_weaken_right (o : Option PyErr)
    (h : (o.all (fun er => !er.isMismatch && !er.isNoOverlap)) = true) :
    (o.all (fun er => !er.isNoOverlap)) = true := by
  cases o <;> simp_all [Option.all]

theorem tail_error_classes (h1 : Heap) (p1 : Potential) (gk : Finset String)
    (iIn : IndepInput) :
    ((setExpressionTail h1 p1 gk iIn).error.all
      (fun er => !er.isMismatch && !er.isNoOverlap)) = true := by
  unfold setExpressionTail
  split
  · rename_i er heq
    rcases indep_error_classes iIn er (stepIndep_error p1 iIn er heq) with h2 | h2 <;>
      simp [h2, Option.all, PyErr.isMismatch, PyErr.isNoOverlap]
  · rename_i p2 heq
    split
    · rfl
    · rename_i e heq2
      split
      · exact check_error_classes _ _ _
      · rename_i hguard
        exact absurd (strSymDisjointCk_true gk e.freeSymbols) hguard

theorem set_expression_no_overlap_of_expr (h : Heap) (p : Potential) (eIn : ExprInput)
    (pIn : ParamsInput) (iIn : IndepInput) (hne : eIn ≠ ExprInput.pyNone) :
    ((Potential.set_expression h p eIn pIn iIn).error.all
      (fun er => !er.isNoOverlap)) = true := by
  unfold Potential.set_expression
  split
  · rename_i er heq
    have h2 := expr_error_classes eIn er (stepExpr_error p eIn er heq)
    simp [h2, Option.all, PyErr.isNoOverlap]
  · rename_i p1 heq
    split
    · exact option_all_weaken_right _ (tail_error_classes _ _ _ _)
    · split
      · rename_i er heq2
        rcases params_error_classes h pIn er heq2 with h2 | h2 <;>
          simp [h2, Option.all, PyErr.isNoOverlap]
      · rename_i nref heq2
        split
        · rename_i hcond
          exact absurd hcond.2 hne
        · exact option_all_weaken_right _ (tail_error_classes _ _ _ _)

theorem map_name_str (l : List String) :
    (l.map IndepItem.str).map IndepItem.name = l := by
  induction l with
  | nil => rfl
  | cons a t ih => simp [ih, IndepItem.name]

theorem map_name_sym (l : List String) :
    (l.map IndepItem.sym).map IndepItem.name = l := by
  induction l with
  | nil => rfl
  | cons a t ih => simp [ih, IndepItem.name]

theorem dictEq_refl_of_nodup (d : Dict) (hnd : (d.map Prod.fst).Nodup) :
    dictEq d d = true := by
  unfold dictEq
  rw [Bool.and_self, List.all_eq_true]
  intro kv hm
  exact decide_eq_true (dict_lookup_of_nodup_mem d hnd kv.1 kv.2 hm)

/-- C1 (amended): when the stored independent variables are a Python set, a
free symbol of the expression that is neither a parameter key nor an
independent variable makes the cross check raise the missing-parameters
ValueError naming exactly the unsupplied symbols, and the constructor
propagates that error; when the independent variables are stored as a list,
the check raises a TypeError instead. -/
theorem c1_missing_symbols_valueerror (pkeys iset : Finset String) (e : SymExpr)
    (hmiss : (e.freeSymbols \ (pkeys ∪ iset)).Nonempty) :
    (validateExpressionParameters pkeys (.asSet iset) (some e)).error
        = some (.valueErrorMissingSyms ((e.freeSymbols \ pkeys) \ iset))
  ∧ (e.freeSymbols \ pkeys) \ iset = e.freeSymbols \ (pkeys ∪ iset)
  ∧ (PyErr.valueErrorMissingSyms ((e.freeSymbols \ pkeys) \ iset)).isValueError = true
  ∧ (∀ (h : Heap) (nm : String) (pIn : ParamsInput) (iIn : IndepInput) (pref : Ref),
      validateParameters h pIn = Except.ok pref →
      validateIndependentVariables iIn = Except.ok (IndepStore.asSet iset) →
      dictKeys (Heap.get h pref) = pkeys →
      Potential.init h nm (.sympyExpr e) pIn iIn
        = Except.error (.valueErrorMissingSyms ((e.freeSymbols \ pkeys) \ iset))) := by
  have hch := check_missing_eq pkeys iset e hmiss
  refine ⟨?_, finset_sdiff_sdiff_union _ _ _, rfl, ?_⟩
  · rw [hch, finset_sdiff_sdiff_union]
  · intro h nm pIn iIn pref hvp hvi hkeys
    simp only [Potential.init, hvp, hvi, validateExpression, hkeys, hch,
      finset_sdiff_sdiff_union]

/-- C1 counterexample: a Potential constructed with independent variables
given as a list of symbols, mutated to an expression with the unsupplied
symbol z: the cross check raises a TypeError, not a ValueError-class error,
and names no symbols. -/
theorem c1_counterexample :
    Potential.init initHeap "Potential" (.sympyExpr defaultExpr) (.dict 0)
        (.list [IndepItem.sym "x"])
      = Except.ok listIndepPotential
  ∧ (Potential.expressionSetter initHeap listIndepPotential
        (.sympyExpr (.add defaultExpr (.sym "z")))).error
      = some PyErr.typeErrorSetMinusList
  ∧ PyErr.typeErrorSetMinusList.isValueError = false := by
  exact ⟨by decide, by decide, rfl⟩

/-- C1 witness: the parameters a, b and the independent variable y leave the
free symbol x of a*x+b unsupplied, and the check raises the ValueError
naming it. -/
theorem c1_witness :
    (validateExpressionParameters {"a", "b"} (.asSet {"y"}) (some defaultExpr)).error
      = some (.valueErrorMissingSyms ((defaultExpr.freeSymbols \ {"a", "b"}) \ {"y"})) :=
  (c1_missing_symbols_valueerror {"a", "b"} {"y"} defaultExpr (by decide)).1

/-- C2 (amended): the line 122 guard compares the str keys of the parameters
dict with the sympy Symbol objects of free_symbols; a str and a Symbol are
never identified by Python set membership, so the sets are always disjoint
and set_expression never raises the line 123 Mismatch ValueError. -/
theorem c2_mismatch_never_raised (h : Heap) (p : Potential) (eIn : ExprInput)
    (pIn : ParamsInput) (iIn : IndepInput) :
    ((Potential.set_expression h p eIn pIn iIn).error.all
      (fun er => !er.isMismatch)) = true := by
  unfold Potential.set_expression
  split
  · rename_i er heq
    have h2 := expr_error_classes eIn er (stepExpr_error p eIn er heq)
    simp [h2, Option.all, PyErr.isMismatch]
  · rename_i p1 heq
    split
    · exact option_all_weaken_left _ (tail_error_classes _ _ _ _)
    · split
      · rename_i er heq2
        rcases params_error_classes h pIn er heq2 with h2 | h2 <;>
          simp [h2, Option.all, PyErr.isMismatch]
      · rename_i nref heq2
        split
        · simp [Option.all, PyErr.isMismatch]
        · exact option_all_weaken_left _ (tail_error_classes _ _ _ _)

/-- C2 counterexample: the supplied parameters key a is a free symbol of the
stored expression a*x+b, yet the set_expression call raises nothing. -/
theorem c2_counterexample :
    "a" ∈ defaultExpr.freeSymbols
  ∧ (Potential.set_expression
      (heapWithDict [("a", .unyt { magnitude := 2, unitName := "dimensionless" })])
      defaultPotential .pyNone (.dict 1) .pyNone).error = none :=
  ⟨by decide, by decide⟩

/-- C3: set_expression with a validated parameters dict sharing no key with
the stored parameters raises the ValueError listing the stored parameter
names exactly when no new expression was supplied; with a new expression
the overlap requirement is waived and the disjoint parameters are merged
into the stored dict. -/
theorem c3_overlap_requirement (h : Heap) (p : Potential) (nref : Ref) (e : SymExpr)
    (iIn : IndepInput)
    (hr : p.parametersRef < h.dicts.length)
    (hv : validateParameters h (.dict nref) = Except.ok nref)
    (hdisj : dictKeys (Heap.get h p.parametersRef) ∩ dictKeys (Heap.get h nref) = ∅) :
    (Potential.set_expression h p .pyNone (.dict nref) iIn).error
        = some (.valueErrorNoOverlap (dictKeysList (Heap.get h p.parametersRef)))
  ∧ ((Potential.set_expression h p (.sympyExpr e) (.dict nref) iIn).error.all
      (fun er => !er.isNoOverlap)) = true
  ∧ Heap.get (Potential.set_expression h p (.sympyExpr e) (.dict nref) iIn).heap
        p.parametersRef
      = dictUpdate (Heap.get h p.parametersRef) (Heap.get h nref) := by
  have hstep : stepExpr p ExprInput.pyNone = Except.ok p := rfl
  have hstep2 : stepExpr p (ExprInput.sympyExpr e)
      = Except.ok { p with expression := some e } := rfl
  refine ⟨?_, ?_, ?_⟩
  · simp [Potential.set_expression, hstep, hv, hdisj]
  · exact set_expression_no_overlap_of_expr h p (.sympyExpr e) (.dict nref) iIn
      (fun hcon => ExprInput.noConfusion hcon)
  · have hcond : ¬ (dictKeys (Heap.get h p.parametersRef) ∩ dictKeys (Heap.get h nref) = ∅
        ∧ ExprInput.sympyExpr e = ExprInput.pyNone) := by
      intro hcon
      exact ExprInput.noConfusion hcon.2
    simp only [Potential.set_expression, hstep2, hv, if_neg hcond, tail_heap_eq]
    exact heap_get_set_self h p.parametersRef _ hr

/-- C3 witness: the stored parameters a, b and a fresh dict with the single
key c share nothing; without a new expression the call raises the overlap
error listing a and b. -/
theorem c3_witness :
    (Potential.set_expression
      (heapWithDict [("c", .unyt { magnitude := 2, unitName := "dimensionless" })])
      defaultPotential .pyNone (.dict 1) .pyNone).error
    = some (.valueErrorNoOverlap ["a", "b"]) := by
  have h1 := (c3_overlap_requirement
    (heapWithDict [("c", .unyt { magnitude := 2, unitName := "dimensionless" })])
    defaultPotential 1 defaultExpr .pyNone (by decide) (by decide) (by decide)).1
  exact h1.trans (by decide)

/-- C4 (amended): with set-stored independent variables, a Potential whose
free symbols are all supplied while parameters or independent variables
hold extra symbols validates without error, and construction succeeds; the
warning names the symmetric difference of the parameter symbols and the
free symbols when those two sets differ, and nothing at all is emitted when
they coincide; with list-stored independent variables the check can instead
raise a TypeError. -/
theorem c4_extra_symbols_graceful (pkeys iset : Finset String) (e : SymExpr)
    (hsub : e.freeSymbols ⊆ pkeys ∪ iset)
    (hextra : ((pkeys ∪ iset) \ e.freeSymbols).Nonempty) :
    (validateExpressionParameters pkeys (.asSet iset) (some e)).error = none
  ∧ (validateExpressionParameters pkeys (.asSet iset) (some e)).warnings
      = (if pkeys = e.freeSymbols then []
         else [Warn.extraneousSymbols (finsetXor pkeys e.freeSymbols)])
  ∧ (∀ (h : Heap) (nm : String) (pIn : ParamsInput) (iIn : IndepInput) (pref : Ref),
      validateParameters h pIn = Except.ok pref →
      validateIndependentVariables iIn = Except.ok (IndepStore.asSet iset) →
      dictKeys (Heap.get h pref) = pkeys →
      Potential.init h nm (.sympyExpr e) pIn iIn
        = Except.ok
            { name := nm, parametersRef := pref,
              independent_variables := IndepStore.asSet iset,
              expression := some e }) := by
  have hch := check_extra_eq pkeys iset e hsub hextra
  refine ⟨?_, ?_, ?_⟩
  · rw [hch]
  · rw [hch]
  · intro h nm pIn iIn pref hvp hvi hkeys
    simp only [Potential.init, hvp, hvi, validateExpression, hkeys, hch]

/-- C4 counterexample: parameters a, b and independent variables the list of
symbols x, y supply every free symbol of a*x+b and add the extra symbol y,
yet construction raises a TypeError instead of succeeding with a warning. -/
theorem c4_counterexample :
    defaultExpr.freeSymbols ⊆ dictKeys (Heap.get initHeap 0) ∪ {"x", "y"}
  ∧ Potential.init initHeap "Potential" (.sympyExpr defaultExpr) (.dict 0)
        (.list [IndepItem.sym "x", IndepItem.sym "y"])
      = Except.error PyErr.typeErrorSetMinusList :=
  ⟨by decide, by decide⟩

/-- C4 witness: parameters a, b, x with independent variables x, y supply
all of a*x+b; validation succeeds with no error. -/
theorem c4_witness :
    (validateExpressionParameters {"a", "b", "x"} (.asSet {"x", "y"})
      (some defaultExpr)).error = none :=
  (c4_extra_symbols_graceful {"a", "b", "x"} {"x", "y"} defaultExpr
    (by decide) (by decide)).1

/-- C5: the parameters setter merges the validated new dict into the stored
dict: afterwards every key maps to the new value when supplied and to the
prior value otherwise, and a key present before stays present. -/
theorem c5_parameters_setter_merges (h : Heap) (p : Potential) (nref : Ref) (k : String)
    (hr : p.parametersRef < h.dicts.length)
    (hv : validateParameters h (.dict nref) = Except.ok nref) :
    (Heap.get (Potential.parametersSetter h p (.dict nref)).heap p.parametersRef).lookup k
        = ((Heap.get h nref).lookup k).or ((Heap.get h p.parametersRef).lookup k)
  ∧ (((Heap.get h p.parametersRef).lookup k).isSome = true →
      ((Heap.get (Potential.parametersSetter h p (.dict nref)).heap
          p.parametersRef).lookup k).isSome = true) := by
  have hheap : (Potential.parametersSetter h p (.dict nref)).heap
      = Heap.set h p.parametersRef
          (dictUpdate (Heap.get h p.parametersRef) (Heap.get h nref)) := by
    simp only [Potential.parametersSetter, hv]
  have hmain : (Heap.get (Potential.parametersSetter h p (.dict nref)).heap
      p.parametersRef).lookup k
      = ((Heap.get h nref).lookup k).or ((Heap.get h p.parametersRef).lookup k) := by
    rw [hheap, heap_get_set_self h p.parametersRef _ hr, dict_lookup_update]
  refine ⟨hmain, ?_⟩
  intro hsome
  rw [hmain]
  cases hn : (Heap.get h nref).lookup k <;>
    cases ho : (Heap.get h p.parametersRef).lookup k <;>
      simp_all [Option.or]

/-- C5 witness: merging the dict with single key c into the default dict
leaves key a at its prior value and adds key c. -/
theorem c5_witness :
    (Heap.get (Potential.parametersSetter
        (heapWithDict [("c", .unyt { magnitude := 2, unitName := "dimensionless" })])
        defaultPotential (.dict 1)).heap defaultPotential.parametersRef).lookup "a"
      = ((Heap.get (heapWithDict
            [("c", .unyt { magnitude := 2, unitName := "dimensionless" })]) 1).lookup "a").or
          ((Heap.get (heapWithDict
            [("c", .unyt { magnitude := 2, unitName := "dimensionless" })])
            defaultPotential.parametersRef).lookup "a") :=
  (c5_parameters_setter_merges
    (heapWithDict [("c", .unyt { magnitude := 2, unitName := "dimensionless" })])
    defaultPotential 1 "a" (by decide) (by decide)).1

/-- C6 (amended): a single string, a single symbol, a nonempty list of
strings and a homogeneous set all normalize to a Python set of symbols with
strings parsed; but a list of symbols, the empty list included, is returned
unchanged as a list, not as a set. -/
theorem c6_indep_normalization :
    (∀ s : String, validateIndependentVariables (.single_str s)
        = Except.ok (IndepStore.asSet {s}))
  ∧ (∀ s : String, validateIndependentVariables (.single_sym s)
        = Except.ok (IndepStore.asSet {s}))
  ∧ (∀ l : List String, l ≠ [] →
      validateIndependentVariables (.list (l.map IndepItem.str))
        = Except.ok (IndepStore.asSet l.toFinset))
  ∧ (∀ l : List String, validateIndependentVariables (.list (l.map IndepItem.sym))
        = Except.ok (IndepStore.asList l))
  ∧ (∀ s : Finset IndepItem, (∀ x ∈ s, IndepItem.isSym x = true) →
      validateIndependentVariables (.set s)
        = Except.ok (IndepStore.asSet (s.image IndepItem.name)))
  ∧ (∀ s : Finset IndepItem, (∀ x ∈ s, IndepItem.isStr x = true) →
      validateIndependentVariables (.set s)
        = Except.ok (IndepStore.asSet (s.image IndepItem.name))) := by
  refine ⟨fun s => rfl, fun s => rfl, ?_, ?_, ?_, ?_⟩
  · intro l hl
    have hsym : ((l.map IndepItem.str).all IndepItem.isSym) = false := by
      cases l with
      | nil => exact absurd rfl hl
      | cons a t => simp [IndepItem.isSym]
    have hstr : ((l.map IndepItem.str).all IndepItem.isStr) = true := by
      simp [List.all_map, IndepItem.isStr]
    simp only [validateIndependentVariables, hsym, Bool.false_eq_true, if_false,
      hstr, if_true, map_name_str]
  · intro l
    have hsym : ((l.map IndepItem.sym).all IndepItem.isSym) = true := by
      simp [List.all_map, IndepItem.isSym]
    simp only [validateIndependentVariables, hsym, if_true, map_name_sym]
  · intro s hs
    simp only [validateIndependentVariables, if_pos hs]
  · intro s hs
    by_cases hsym : ∀ x ∈ s, IndepItem.isSym x = true
    · simp only [validateIndependentVariables, if_pos hsym]
    · simp only [validateIndependentVariables, if_neg hsym, if_pos hs]

/-- C6 counterexample: a list holding the single symbol x is accepted and
returned as the list itself, not as a set. -/
theorem c6_counterexample :
    validateIndependentVariables (.list [IndepItem.sym "x"])
      = Except.ok (IndepStore.asList ["x"])
  ∧ (IndepStore.asList ["x"]).isSetResult = false :=
  ⟨by decide, rfl⟩

/-- C6 witness: the list of strings x, y normalizes to the set of the two
symbols. -/
theorem c6_witness :
    validateIndependentVariables (.list [IndepItem.str "x", IndepItem.str "y"])
      = Except.ok (IndepStore.asSet (["x", "y"] : List String).toFinset) :=
  c6_indep_normalization.2.2.1 ["x", "y"] (by decide)

/-- C7: equality of Potentials holds exactly when the names agree, the
parameters dicts are equal and the expressions are symbolically equal; the
independent variables are never read, so replacing them on either side
leaves the comparison unchanged, and two objects differing only there
compare equal. -/
theorem c7_eq_ignores_indep (h : Heap) (p q : Potential) :
    (Potential.beq h p q = true ↔
      (p.name = q.name
        ∧ dictEq (Heap.get h p.parametersRef) (Heap.get h q.parametersRef) = true
        ∧ p.expression = q.expression))
  ∧ (∀ iv : IndepStore, Potential.beq h p { q with independent_variables := iv }
      = Potential.beq h p q)
  ∧ ((dictKeysList (Heap.get h p.parametersRef)).Nodup →
      ∀ iv iv2 : IndepStore,
        Potential.beq h { p with independent_variables := iv }
          { p with independent_variables := iv2 } = true) := by
  refine ⟨?_, fun iv => rfl, ?_⟩
  · simp [Potential.beq, Bool.and_eq_true, decide_eq_true_eq, and_assoc]
  · intro hnd iv iv2
    have hd := dictEq_refl_of_nodup (Heap.get h p.parametersRef) hnd
    simp [Potential.beq, hd]

/-- C7 witness: two Potentials equal in name, parameters and expression but
with different independent variable sets compare equal. -/
theorem c7_witness :
    Potential.beq initHeap
      { defaultPotential with independent_variables := IndepStore.asSet {"x"} }
      { defaultPotential with independent_variables := IndepStore.asSet {"x", "y"} }
      = true :=
  (c7_eq_ignores_indep initHeap defaultPotential defaultPotential).2.2 (by decide)
    (IndepStore.asSet {"x"}) (IndepStore.asSet {"x", "y"})

/-- C8: a valid new expression whose free symbols break the cross check is
already stored when the missing-symbols ValueError propagates, through the
expression setter as well as through set_expression: the post state carries
the new expression together with the error. -/
theorem c8_validate_after_mutate (h : Heap) (p : Potential) (e : SymExpr)
    (iset : Finset String)
    (hI : p.independent_variables = IndepStore.asSet iset)
    (hmiss : (e.freeSymbols
        \ (dictKeys (Heap.get h p.parametersRef) ∪ iset)).Nonempty) :
    ((Potential.expressionSetter h p (.sympyExpr e)).pot.expression = some e
      ∧ (Potential.expressionSetter h p (.sympyExpr e)).error
          = some (.valueErrorMissingSyms
              ((e.freeSymbols \ dictKeys (Heap.get h p.parametersRef)) \ iset)))
  ∧ ((Potential.set_expression h p (.sympyExpr e) .pyNone .pyNone).pot.expression
        = some e
      ∧ (Potential.set_expression h p (.sympyExpr e) .pyNone .pyNone).error
          = some (.valueErrorMissingSyms
              ((e.freeSymbols \ dictKeys (Heap.get h p.parametersRef)) \ iset))) := by
  have hch := check_missing_eq (dictKeys (Heap.get h p.parametersRef)) iset e hmiss
  have hstepE : stepExpr p (ExprInput.sympyExpr e)
      = Except.ok { p with expression := some e } := rfl
  have hmain : Potential.set_expression h p (.sympyExpr e) .pyNone .pyNone
      = setExpressionTail h { p with expression := some e }
          (dictKeys (Heap.get h p.parametersRef)) .pyNone := by
    simp only [Potential.set_expression, hstepE]
  have htail : setExpressionTail h { p with expression := some e }
      (dictKeys (Heap.get h p.parametersRef)) .pyNone
      = { heap := h, pot := { p with expression := some e },
          error := (validateExpressionParameters
            (dictKeys (Heap.get h p.parametersRef))
            p.independent_variables (some e)).error,
          warnings := (validateExpressionParameters
            (dictKeys (Heap.get h p.parametersRef))
            p.independent_variables (some e)).warnings } := by
    simp only [setExpressionTail, stepIndep, if_pos rfl, strSymDisjointCk_true, if_true]
  refine ⟨⟨rfl, ?_⟩, ?_, ?_⟩
  · simp only [Potential.expressionSetter, validateExpression, hI, hch,
      finset_sdiff_sdiff_union]
  · rw [hmain, htail]
  · rw [hmain, htail]
    simp only [hI, hch, finset_sdiff_sdiff_union]

/-- C8 witness: setting the expression a*x+b+z on a default Potential stores
the new expression and raises the missing-symbols error for z. -/
theorem c8_witness :
    (Potential.expressionSetter initHeap defaultPotential
        (.sympyExpr (.add defaultExpr (.sym "z")))).pot.expression
      = some (.add defaultExpr (.sym "z"))
  ∧ (Potential.expressionSetter initHeap defaultPotential
        (.sympyExpr (.add defaultExpr (.sym "z")))).error
      = some (.valueErrorMissingSyms
          (((SymExpr.add defaultExpr (.sym "z")).freeSymbols
            \ dictKeys (Heap.get initHeap defaultPotential.parametersRef)) \ {"x"})) :=
  (c8_validate_after_mutate initHeap defaultPotential
    (.add defaultExpr (.sym "z")) {"x"} rfl (by decide)).1

/-- C9: _validate_parameters returns the very dict object it was given, a
defaulted construction stores the shared default dict object, and after one
defaulted Potential merges a fresh unit-tagged entry c through its
parameters setter, a Potential default-constructed afterwards finds the key
c in its own parameters mapping. -/
theorem c9_shared_default_dict (q : UnytQ) :
    (∀ (h : Heap) (r : Ref),
      validateParameters h (.dict r)
        = (if ((Heap.get h r).all fun kv => PyVal.isUnyt kv.2) then Except.ok r
           else Except.error PyErr.valueErrorLacksUnyt))
  ∧ Potential.initDefault initHeap = Except.ok defaultPotential
  ∧ (Potential.parametersSetter
        (Heap.alloc initHeap [("c", PyVal.unyt q)]).1 defaultPotential
        (.dict (Heap.alloc initHeap [("c", PyVal.unyt q)]).2)).error = none
  ∧ initOkRef (Potential.initDefault
        (Potential.parametersSetter
          (Heap.alloc initHeap [("c", PyVal.unyt q)]).1 defaultPotential
          (.dict (Heap.alloc initHeap [("c", PyVal.unyt q)]).2)).heap)
      = some defaultParamsRef
  ∧ (Heap.get (Potential.parametersSetter
        (Heap.alloc initHeap [("c", PyVal.unyt q)]).1 defaultPotential
        (.dict (Heap.alloc initHeap [("c", PyVal.unyt q)]).2)).heap
      defaultParamsRef).lookup "c" = some (PyVal.unyt q) :=
  ⟨fun h r => rfl, by decide, rfl, rfl, rfl⟩

theorem tail_ok_expression (h1 : Heap) (p1 : Potential) (gk : Finset String)
    (iIn : IndepInput)
    (herr : (setExpressionTail h1 p1 gk iIn).error = none) :
    (setExpressionTail h1 p1 gk iIn).pot.expression.isSome = true := by
  simp only [setExpressionTail] at herr ⊢
  split at herr
  · simp at herr
  · rename_i p2 heq
    split at herr
    · simp at herr
    · rename_i e heq2
      split at herr
      · rename_i hguard
        simp [heq, heq2, hguard]
      · simp at herr

/-- C10: _validate_expression passes None through, but the cross check then
reads free_symbols of None, an AttributeError and not a ValueError; the
constructor with a None expression fails with it whenever the earlier
validators pass, and no successful construction, expression setter call or
set_expression call leaves a None expression stored. -/
theorem c10_none_expression_unreachable :
    validateExpression ExprInput.pyNone = Except.ok none
  ∧ (∀ (pk : Finset String) (st : IndepStore),
      validateExpressionParameters pk st none
        = { warnings := [], error := some PyErr.attributeErrorNoneFreeSymbols })
  ∧ PyErr.attributeErrorNoneFreeSymbols.isValueError = false
  ∧ (∀ (h : Heap) (nm : String) (pIn : ParamsInput) (iIn : IndepInput)
        (pref : Ref) (st : IndepStore),
      validateParameters h pIn = Except.ok pref →
      validateIndependentVariables iIn = Except.ok st →
      Potential.init h nm ExprInput.pyNone pIn iIn
        = Except.error PyErr.attributeErrorNoneFreeSymbols)
  ∧ (∀ (h : Heap) (nm : String) (eIn : ExprInput) (pIn : ParamsInput)
        (iIn : IndepInput) (p : Potential),
      Potential.init h nm eIn pIn iIn = Except.ok p → p.expression.isSome = true)
  ∧ (∀ (h : Heap) (p : Potential) (eIn : ExprInput),
      (Potential.expressionSetter h p eIn).error = none →
      (Potential.expressionSetter h p eIn).pot.expression.isSome = true)
  ∧ (∀ (h : Heap) (p : Potential) (eIn : ExprInput) (pIn : ParamsInput)
        (iIn : IndepInput),
      (Potential.set_expression h p eIn pIn iIn).error = none →
      (Potential.set_expression h p eIn pIn iIn).pot.expression.isSome = true) := by
  refine ⟨rfl, fun pk st => rfl, rfl, ?_, ?_, ?_, ?_⟩
  · intro h nm pIn iIn pref st hvp hvi
    simp only [Potential.init, hvp, hvi, validateExpression, validateExpressionParameters]
  · intro h nm eIn pIn iIn p hok
    simp only [Potential.init] at hok
    split at hok
    · exact absurd hok (by simp)
    · split at hok
      · exact absurd hok (by simp)
      · split at hok
        · exact absurd hok (by simp)
        · rename_i oe he
          rcases oe with _ | e
          · simp only [validateExpressionParameters] at hok
            exact absurd hok (by simp)
          · split at hok
            · exact absurd hok (by simp)
            · injection hok with h2
              rw [← h2]
              rfl
  · intro h p eIn herr
    rcases hv : validateExpression eIn with er | oe
    · simp only [Potential.expressionSetter, hv] at herr
      simp at herr
    · simp only [Potential.expressionSetter, hv] at herr ⊢
      rcases oe with _ | e
      · simp only [validateExpressionParameters] at herr
        simp at herr
      · rfl
  · intro h p eIn pIn iIn herr
    rcases hv : stepExpr p eIn with er | p1
    · simp only [Potential.set_expression, hv] at herr
      simp at herr
    · simp only [Potential.set_expression, hv] at herr ⊢
      rcases pIn with r | _ | _
      · rcases hv2 : validateParameters h (ParamsInput.dict r) with er | nref
        · simp only [hv2] at herr
          simp at herr
        · simp only [hv2] at herr ⊢
          split at herr
          · simp at herr
          · rename_i hcond
            rw [if_neg hcond]
            exact tail_ok_expression _ _ _ _ herr
      · exact tail_ok_expression _ _ _ _ herr
      · rcases hv2 : validateParameters h ParamsInput.notDict with er | nref
        · simp only [hv2] at herr
          simp at herr
        · simp only [hv2] at herr ⊢
          split at herr
          · simp at herr
          · rename_i hcond
            rw [if_neg hcond]
            exact tail_ok_expression _ _ _ _ herr

/-- C10 witness: building a Potential with the default parameters dict, the
independent variable x and a None expression fails with the AttributeError
from the cross check. -/
theorem c10_witness :
    Potential.init initHeap "Potential" ExprInput.pyNone (.dict 0) (.single_str "x")
      = Except.error PyErr.attributeErrorNoneFreeSymbols :=
  c10_none_expression_unreachable.2.2.2.1 initHeap "Potential" (.dict 0)
    (.single_str "x") 0 (IndepStore.asSet {"x"}) (by decide) (by decide)

/-- C9 witness: with the concrete entry c mapped to 2 dimensionless, the
shared default dict read through the default reference afterwards contains
the key c. -/
theorem c9_witness :
    (Heap.get (Potential.parametersSetter
        (Heap.alloc initHeap
          [("c", PyVal.unyt { magnitude := 2, unitName := "dimensionless" })]).1
        defaultPotential
        (.dict (Heap.alloc initHeap
          [("c", PyVal.unyt { magnitude := 2, unitName := "dimensionless" })]).2)).heap
      defaultParamsRef).lookup "c"
    = some (PyVal.unyt { magnitude := 2, unitName := "dimensionless" }) :=
  (c9_shared_default_dict { magnitude := 2, unitName := "dimensionless" }).2.2.2.2
